import Mathlib

/-!
Shallow embedding of the stress workload driver in src/stress/driver.py
(functions _create_cases, _get_compute_nodes, and the bash_openstack run
loop with its cleanup phase), together with theorems checking the
natural-language specification against it.

External collaborators (the transport, the action layer, the random
number generator, the failure-detector log reads, the cluster API) are
modelled as oracles: every call the driver makes to one of them is a
lookup in a function supplied by the environment, indexed by how many
calls of that kind the driver has made so far.  Wall-clock time is the
same: the q-th call of time.time() returns an arbitrary environment
value.  Python exceptions are modelled with Except.
-/

/-- The run-aborting faults the driver code can raise:
the AssertionError from assert(count == 100) in _create_cases,
an exception raised by a verification handle's retry() (not caught by
the loop), the Exception("Cleanup timed out") in the cleanup phase, and
the IndexError from words[4] in _get_compute_nodes. -/
inductive DriverError
  | assertionFailed
  | retryException
  | cleanupTimeout
  | indexError
deriving DecidableEq, Repr

/-! ## The action catalog: _create_cases -/

/-- One entry of the workload description (a BasherChoice): an opaque
action together with its integer weight, source field name probability.
Weights are Python ints, so they are modelled as Int (they can be
negative). -/
structure Choice where
  action : Nat
  probability : Int
deriving DecidableEq, Repr

/-- Sum of the probability fields of a workload description,
the final value of the count accumulator in _create_cases. -/
def weightSum (spec : List Choice) : Int :=
  (spec.map (fun c => c.probability)).sum

/-- The flat pool _create_cases builds: each choice repeated
probability-many times, in input order.  Python's range(p) is empty for
p <= 0, hence Int.toNat. -/
def expandPool (spec : List Choice) : List Choice :=
  spec.flatMap (fun c => List.replicate c.probability.toNat c)

/-- One iteration of the for-loop body of _create_cases:
appends the choice p times to cases and adds p to count. -/
def caseStep (acc : List Choice × Int) (choice : Choice) : List Choice × Int :=
  (acc.1 ++ List.replicate choice.probability.toNat choice, acc.2 + choice.probability)

/-- Function _create_cases (driver.py lines 50-63): builds the cases list and the
count accumulator over the choice list, then assert(count == 100); a
failing assert raises (AssertionError). -/
def _create_cases (choice_spec : List Choice) : Except DriverError (List Choice) :=
  let r := choice_spec.foldl caseStep ([], 0)
  if r.2 = 100 then Except.ok r.1 else Except.error DriverError.assertionFailed

/-- Sum of the weights of the entries with strictly positive weight. -/
def posWeightSum (spec : List Choice) : Int :=
  ((spec.filter (fun c => decide (0 < c.probability))).map (fun c => c.probability)).sum

/-! ## Node discovery: _get_compute_nodes -/

/-- Python line.split() : splits on whitespace runs, dropping empty
words.  The accumulator holds the current word reversed. -/
def pySplitAux : List Char → List Char → List (List Char)
  | [], cur => if cur.isEmpty then [] else [cur.reverse]
  | c :: rest, cur =>
    if c.isWhitespace then
      if cur.isEmpty then pySplitAux rest [] else cur.reverse :: pySplitAux rest []
    else pySplitAux rest (c :: cur)

/-- Python line.split() with no separator argument. -/
def pySplit (line : List Char) : List (List Char) :=
  pySplitAux line []

/-- Python s.split('\n') : cuts at every newline, keeping empty lines. -/
def splitLines : List Char → List (List Char)
  | [] => [[]]
  | c :: rest =>
    if c = '\n' then [] :: splitLines rest
    else
      match splitLines rest with
      | [] => [[c]]
      | l :: ls => (c :: l) :: ls

/-- The for-loop of _get_compute_nodes (driver.py lines 79-83):
words = line.split(); if len(words) > 0 and words[4] == ":-)" then
append words[1].  Indexing words[4] on a line of 1 to 4 words raises
IndexError. -/
def computeNodesLoop : List (List Char) → List (List Char) → Except DriverError (List (List Char))
  | [], nodes => Except.ok nodes
  | line :: rest, nodes =>
    let words := pySplit line
    if 0 < words.length then
      match words.get? 4 with
      | none => Except.error DriverError.indexError
      | some w4 =>
        if w4 = ":-)".toList then
          match words.get? 1 with
          | none => Except.error DriverError.indexError
          | some w1 => computeNodesLoop rest (nodes ++ [w1])
        else computeNodesLoop rest nodes
    else computeNodesLoop rest nodes

/-- Function _get_compute_nodes (driver.py): returns [] when keypath or user is
None, otherwise scans the lines of the ssh output (the remote ssh call
itself is an external transport; its output string is the argument). -/
def _get_compute_nodes (keypath user : Option String) (sshOutput : List Char) :
    Except DriverError (List (List Char)) :=
  if keypath.isNone || user.isNone then Except.ok []
  else computeNodesLoop (splitLines sshOutput) []

/-! ## Verification handles and the retry drain -/

/-- A pending verification object returned by case.invoke.  Its retry()
method is external code: the n-th call (0-based n = calls) returns
behavior n, where none models retry() raising an exception and some b a
normal return of the Python bool b.  calls is the object's implicit
internal call counter. -/
structure Handle where
  behavior : Nat → Option Bool
  calls : Nat

/-- The handle after one more retry() call on it. -/
def Handle.advance (h : Handle) : Handle :=
  { h with calls := h.calls + 1 }

/-- One drain pass over retry_list (driver.py lines 164-168):
new_retry_list = []; for v in retry_list: if not v.retry():
new_retry_list.append(v).  A handle is kept exactly when retry()
returns False; an exception from retry() propagates (there is no
try/except), abandoning the rest of the pass. -/
def drainPass : List Handle → Except DriverError (List Handle)
  | [] => Except.ok []
  | v :: rest =>
    match v.behavior v.calls with
    | none => Except.error DriverError.retryException
    | some r =>
      match drainPass rest with
      | Except.error e => Except.error e
      | Except.ok rest2 => Except.ok (if r then rest2 else v.advance :: rest2)

/-- Runs k successive drain passes, first pass first. -/
def drainPasses : Nat → List Handle → Except DriverError (List Handle)
  | 0, l => Except.ok l
  | k + 1, l =>
    match drainPass l with
    | Except.error e => Except.error e
    | Except.ok l2 => drainPasses k l2

/-! ## The run loop of bash_openstack -/

/-- The kinds of exception get_server can raise during cleanup
(driver.py catches them all identically with except Exception). -/
inductive ExnKind
  | notFound
  | transport
  | other
deriving DecidableEq, Repr

/-- The environment: every external call the driver makes, as an oracle
indexed by a per-kind call counter held in the loop state.
now q        : value of the q-th time.time() call;
invoke i     : result of the i-th case.invoke call (the sampled case and
               the cluster's reaction are both external, so the i-th
               sampling-and-invocation is folded into one oracle value:
               none when the action returns None, some h when it
               returns the pending verification h);
logsErr j    : result of the j-th _error_in_logs call (the
               FailureDetector; its internal ssh reads are external);
getServer id q : result of the q-th get_server(id) call during cleanup,
               ok () = the server record was returned (still present),
               error k = the call raised an exception of kind k. -/
structure Env where
  now : Nat → Int
  invoke : Nat → Option Handle
  logsErr : Nat → Bool
  getServer : String → Nat → Except ExnKind Unit

/-- The mutable locals of the while-loop of bash_openstack, plus the
oracle call counters.  samples counts executed random.choice /
case.invoke events. -/
structure LoopState where
  timeq : Nat
  samples : Nat
  logq : Nat
  retry_list : List Handle
  last_retry : Int
  cooldown : Bool
  logcheck_count : Nat
  test_succeeded : Bool

/-- Result of one loop iteration: continue looping, or break out of the
loop carrying the test_succeeded flag. -/
inductive StepResult
  | next (s : LoopState)
  | exit (succeeded : Bool) (s : LoopState)

/-- The loop state carried by a step result. -/
def StepResult.state : StepResult → LoopState
  | .next s => s
  | .exit _ s => s

/-- The injection block (driver.py lines 146-156): if not cooldown:
if time.time() < test_end_time: sample a case, invoke it, append a
returned verification to retry_list; else set cooldown = True.
time.time() is consulted only when not in cooldown. -/
def injectPhase (env : Env) (tEnd : Int) (s0 : LoopState) : LoopState :=
  if s0.cooldown then s0
  else
    let t := env.now s0.timeq
    let s := { s0 with timeq := s0.timeq + 1 }
    if t < tEnd then
      match env.invoke s.samples with
      | some h => { s with samples := s.samples + 1, retry_list := s.retry_list ++ [h] }
      | none => { s with samples := s.samples + 1 }
    else
      { s with cooldown := true }

/-- The final log check (driver.py lines 157-160), reached when
cooldown holds and retry_list is empty: one _error_in_logs call, a
positive result clears test_succeeded, then break. -/
def finalCheck (env : Env) (s : LoopState) : StepResult :=
  let err := env.logsErr s.logq
  let flag := if err then false else s.test_succeeded
  StepResult.exit flag { s with logq := s.logq + 1, test_succeeded := flag }

/-- The retry block (driver.py lines 161-169): if time.time() -
last_retry > 5, run a drain pass over retry_list and stamp last_retry
with a fresh time.time().  An exception from a retry() propagates. -/
def retryPhase (env : Env) (s : LoopState) : Except DriverError LoopState :=
  let t := env.now s.timeq
  let s1 := { s with timeq := s.timeq + 1 }
  if 5 < t - s1.last_retry then
    match drainPass s1.retry_list with
    | Except.error e => Except.error e
    | Except.ok newList =>
      Except.ok { s1 with retry_list := newList, last_retry := env.now s1.timeq,
                          timeq := s1.timeq + 1 }
  else Except.ok s1

/-- The trailing log check (driver.py lines 171-179): if
logcheck_count > 100 then run _error_in_logs - a positive result sets
test_succeeded = False and breaks, a negative one resets the counter -
else increment logcheck_count.  The increment happens on every loop
iteration that reaches this point, whether or not an action was
invoked. -/
def logcheckPhase (env : Env) (s : LoopState) : StepResult :=
  if 100 < s.logcheck_count then
    if env.logsErr s.logq then
      StepResult.exit false { s with logq := s.logq + 1, test_succeeded := false }
    else
      StepResult.next { s with logq := s.logq + 1, logcheck_count := 0 }
  else
    StepResult.next { s with logcheck_count := s.logcheck_count + 1 }

/-- One full iteration of the while True loop, in source order:
injection block; break-on-drained check; retry block (whose exception
propagates); time.sleep (no observable effect); trailing log check. -/
def step (env : Env) (tEnd : Int) (s0 : LoopState) : Except DriverError StepResult :=
  let s1 := injectPhase env tEnd s0
  if s1.cooldown && s1.retry_list.isEmpty then
    Except.ok (finalCheck env s1)
  else
    match retryPhase env s1 with
    | Except.error e => Except.error e
    | Except.ok s3 => Except.ok (logcheckPhase env s3)

/-- Outcome of iterating the loop: it broke out with the flag, or the
model's fuel ran out while the loop was still going. -/
inductive RunResult
  | finished (succeeded : Bool) (s : LoopState)
  | outOfFuel (s : LoopState)

/-- The loop state carried by a run result. -/
def RunResult.state : RunResult → LoopState
  | .finished _ s => s
  | .outOfFuel s => s

/-- Iterate the loop up to fuel times (the Python loop has no intrinsic
bound; fuel is a model artifact and exceeding it is reported, never
silently converted into an outcome). -/
def runLoop (env : Env) (tEnd : Int) : Nat → LoopState → Except DriverError RunResult
  | 0, s => Except.ok (RunResult.outOfFuel s)
  | fuel + 1, s =>
    match step env tEnd s with
    | Except.error e => Except.error e
    | Except.ok (StepResult.next s') => runLoop env tEnd fuel s'
    | Except.ok (StepResult.exit b s') => Except.ok (RunResult.finished b s')

/-! ## Cleanup -/

/-- A resource record held by the State tracker: Python keeps a dict
id -> (record, status) and reads v[0]['id'] and v[1]. -/
structure VM where
  id : String
  status : String
deriving DecidableEq, Repr

/-- What one deletion-confirmation poll loop did. -/
structure PollOutcome where
  getCalls : Nat
  detCalls : Nat
  timedOut : Bool
deriving DecidableEq, Repr

/-- The inner while True of the cleanup phase (driver.py lines 187-199)
for one kill_id: call get_server; any exception means the server is
gone, so break; otherwise i += 1 and if i > 60 run one _error_in_logs
and raise Exception("Cleanup timed out"); else sleep 1s and repeat.
The Python counter i (incremented after each call, raising when
i > 60, i.e. after the 61st call) is represented by the remaining
budget = 60 - i, so the recursion is on the budget (the error arm is
the same in both branches: an exception always breaks the loop); the
argument i counts the get_server calls already made. -/
def pollDeletion (env : Env) (kill_id : String) : Nat → Nat → PollOutcome
  | 0, i =>
    match env.getServer kill_id i with
    | Except.error _ => { getCalls := i + 1, detCalls := 0, timedOut := false }
    | Except.ok _ => { getCalls := i + 1, detCalls := 1, timedOut := true }
  | b + 1, i =>
    match env.getServer kill_id i with
    | Except.error _ => { getCalls := i + 1, detCalls := 0, timedOut := false }
    | Except.ok _ => pollDeletion env kill_id b (i + 1)

/-- The second cleanup for-loop: confirm each active vm gone, removing
its record from the state tracker.
Modelled from the spec: state.delete_instance_state lives in the
repository's state.py, which is not part of the sources here; the spec
describes the ClusterStateTracker remove(id) operation as deleting the
id's record, modelled as filtering the id out of the tracker list. -/
def cleanupTargets (env : Env) : List VM → List VM → Except DriverError (List VM)
  | tracker, [] => Except.ok tracker
  | tracker, target :: rest =>
    let out := pollDeletion env target.id 60 0
    if out.timedOut then Except.error DriverError.cleanupTimeout
    else cleanupTargets env (tracker.filter (fun v => v.id != target.id)) rest

/-- The cleanup phase (driver.py lines 182-201): select the ACTIVE
records, issue delete_server for each (an external call with no
observable here), then confirm each deletion.
Modelled from the spec: state.get_instances, from the absent state.py,
is the tracker's all() mapping; the tracker list argument stands for
its contents at loop exit. -/
def cleanup (env : Env) (tracker : List VM) : Except DriverError (List VM) :=
  let active := tracker.filter (fun v => v.status == "ACTIVE")
  cleanupTargets env tracker active

/-- Loop followed by cleanup, propagating exceptions and returning the
test_succeeded flag with the final tracker contents: the tail of
bash_openstack after the catalog is built.  none = fuel ran out. -/
def runToEnd (env : Env) (tEnd : Int) (fuel : Nat) (s : LoopState) (tracker : List VM) :
    Except DriverError (Option (Bool × List VM)) :=
  match runLoop env tEnd fuel s with
  | Except.error e => Except.error e
  | Except.ok (RunResult.outOfFuel _) => Except.ok none
  | Except.ok (RunResult.finished b _) =>
    match cleanup env tracker with
    | Except.error e => Except.error e
    | Except.ok tr => Except.ok (some (b, tr))

/-- The loop locals as initialized before while True: test_end_time =
time.time() + duration (time query 0), retry_list = [], last_retry =
time.time() (time query 1), cooldown = False, logcheck_count = 0,
test_succeeded = True. -/
def initState (env : Env) : LoopState :=
  { timeq := 2, samples := 0, logq := 0, retry_list := [], last_retry := env.now 1,
    cooldown := false, logcheck_count := 0, test_succeeded := true }

/-- Function bash_openstack: build the catalog (its assert firing aborts the
run before the loop starts), then run the loop and the cleanup.  Node
discovery and the pre-run log truncation are external calls with no
effect on the core state and are not modelled; the built cases list
feeds only the sampling oracle. -/
def bash_openstack (choice_spec : List Choice) (env : Env) (duration : Int) (fuel : Nat)
    (tracker : List VM) : Except DriverError (Option (Bool × List VM)) :=
  match _create_cases choice_spec with
  | Except.error e => Except.error e
  | Except.ok _cases => runToEnd env (env.now 0 + duration) fuel (initState env) tracker

/-! ## Catalog lemmas -/

/-- The for-loop of _create_cases, run from any accumulator pair,
appends the expanded pool and adds the weight sum. -/
theorem foldl_caseStep (spec : List Choice) :
    ∀ (acc : List Choice) (n : Int),
      List.foldl caseStep (acc, n) spec = (acc ++ expandPool spec, n + weightSum spec) := by
  induction spec with
  | nil => intro acc n; simp [expandPool, weightSum]
  | cons c rest ih =>
      intro acc n
      simp only [List.foldl_cons, caseStep, ih, expandPool, weightSum, List.flatMap_cons,
        List.map_cons, List.sum_cons, List.append_assoc, Prod.mk.injEq, true_and]
      ring

/-- Here _create_cases returns the expanded pool when the weights sum to
100 and raises otherwise. -/
theorem create_cases_eq (spec : List Choice) :
    _create_cases spec =
      if weightSum spec = 100 then Except.ok (expandPool spec)
      else Except.error DriverError.assertionFailed := by
  simp only [_create_cases, foldl_caseStep, List.nil_append, zero_add]

/-- Length of the expanded pool: the sum of the clamped weights. -/
theorem length_expandPool (spec : List Choice) :
    (expandPool spec).length = (spec.map (fun c => c.probability.toNat)).sum := by
  induction spec with
  | nil => rfl
  | cons c rest ih =>
      rw [expandPool, List.flatMap_cons, List.length_append, List.length_replicate,
        List.map_cons, List.sum_cons]
      exact congrArg (c.probability.toNat + ·) ih

/-- With all weights non-negative, the clamped weight sum is the weight
sum. -/
theorem toNatSum_eq_of_nonneg (spec : List Choice) (h : ∀ c ∈ spec, 0 ≤ c.probability) :
    (((spec.map (fun c => c.probability.toNat)).sum : Nat) : Int) = weightSum spec := by
  induction spec with
  | nil => simp [weightSum]
  | cons c rest ih =>
      rw [weightSum, List.map_cons, List.sum_cons, List.map_cons, List.sum_cons, Nat.cast_add,
        Int.toNat_of_nonneg (h c (List.mem_cons_self c rest)),
        ih (fun d hd => h d (List.mem_cons_of_mem _ hd)), weightSum]

/-- The clamped weight sum is the sum of the strictly positive
weights. -/
theorem toNatSum_eq_posWeightSum (spec : List Choice) :
    (((spec.map (fun c => c.probability.toNat)).sum : Nat) : Int) = posWeightSum spec := by
  induction spec with
  | nil => simp [posWeightSum]
  | cons c rest ih =>
      rw [List.map_cons, List.sum_cons, Nat.cast_add]
      by_cases h : 0 < c.probability
      · rw [posWeightSum, List.filter_cons_of_pos (by simpa using h), List.map_cons,
          List.sum_cons, Int.toNat_of_nonneg (le_of_lt h)]
        exact congrArg (c.probability + ·) (ih.trans rfl)
      · rw [posWeightSum, List.filter_cons_of_neg (by simpa using h),
          Int.toNat_of_nonpos (le_of_not_lt h)]
        rw [show ((rest.filter (fun c => decide (0 < c.probability))).map
              (fun c => c.probability)).sum = posWeightSum rest from rfl, ← ih]
        simp

/-- The weight sum never exceeds the clamped weight sum. -/
theorem weightSum_le_toNatSum (spec : List Choice) :
    weightSum spec ≤ (((spec.map (fun c => c.probability.toNat)).sum : Nat) : Int) := by
  induction spec with
  | nil => simp [weightSum]
  | cons c rest ih =>
      rw [weightSum, List.map_cons, List.sum_cons, List.map_cons, List.sum_cons, Nat.cast_add]
      exact add_le_add (Int.self_le_toNat _) (le_trans (le_of_eq rfl) ih)

/-- With a strictly negative weight present, the clamped weight sum
strictly exceeds the weight sum. -/
theorem weightSum_lt_toNatSum (spec : List Choice) (c : Choice)
    (hc : c ∈ spec) (hneg : c.probability < 0) :
    weightSum spec < (((spec.map (fun d => d.probability.toNat)).sum : Nat) : Int) := by
  induction spec with
  | nil => cases hc
  | cons d rest ih =>
      rw [weightSum, List.map_cons, List.sum_cons, List.map_cons, List.sum_cons, Nat.cast_add]
      rcases List.mem_cons.mp hc with rfl | hmem
      · have h1 : c.probability < ((c.probability.toNat : Nat) : Int) :=
          lt_of_lt_of_le hneg (Int.natCast_nonneg _)
        exact add_lt_add_of_lt_of_le h1 (weightSum_le_toNatSum rest)
      · exact add_lt_add_of_le_of_lt (Int.self_le_toNat _) (ih hmem)

/-- In a duplicate-free description, each entry occurs in the expanded
pool exactly its clamped weight many times. -/
theorem count_expandPool (spec : List Choice) (hnd : spec.Nodup) (c : Choice) (hc : c ∈ spec) :
    (expandPool spec).count c = c.probability.toNat := by
  induction spec with
  | nil => cases hc
  | cons d rest ih =>
      rw [List.nodup_cons] at hnd
      rw [expandPool, List.flatMap_cons, List.count_append]
      rcases List.mem_cons.mp hc with rfl | hmem
      · rw [List.count_replicate_self]
        have hno : c ∉ rest.flatMap (fun a => List.replicate a.probability.toNat a) := by
          intro hx
          rcases List.mem_flatMap.mp hx with ⟨a, ha, hxa⟩
          rw [List.eq_of_mem_replicate hxa] at hnd
          exact hnd.1 ha
        rw [List.count_eq_zero.mpr hno, Nat.add_zero]
      · have hne : d ≠ c := by
          intro h
          rw [h] at hnd
          exact hnd.1 hmem
        have h0 : List.count c (List.replicate d.probability.toNat d) = 0 :=
          List.count_eq_zero.mpr (fun hx => hne (List.eq_of_mem_replicate hx).symm)
        rw [h0, Nat.zero_add]
        exact ih hnd.2 hmem

/-! ## C1 and C9: the catalog invariant -/

/-- C1: for a workload description with non-negative integer weights
summing to exactly 100, _create_cases returns the order-preserving
expansion of the description, which has length exactly 100 and (for
pairwise-distinct entries) contains each entry exactly its weight many
times; and for any description whose weights do not sum to 100, the run
fails with the catalog-build assertion (the configuration error) before
the loop can start, whatever the environment. -/
theorem c1_catalog_invariant (spec : List Choice)
    (hnn : ∀ c ∈ spec, 0 ≤ c.probability) (hsum : weightSum spec = 100) :
    _create_cases spec = Except.ok (expandPool spec) ∧
    (expandPool spec).length = 100 ∧
    (spec.Nodup → ∀ c ∈ spec, (expandPool spec).count c = c.probability.toNat) ∧
    (∀ spec2 : List Choice, weightSum spec2 ≠ 100 →
      ∀ (env : Env) (d : Int) (fuel : Nat) (tracker : List VM),
        bash_openstack spec2 env d fuel tracker = Except.error DriverError.assertionFailed) := by
  refine ⟨by rw [create_cases_eq, if_pos hsum], ?_, ?_, ?_⟩
  · have h := toNatSum_eq_of_nonneg spec hnn
    rw [hsum] at h
    rw [length_expandPool]
    exact_mod_cast h
  · intro hnd c hc
    exact count_expandPool spec hnd c hc
  · intro spec2 hs2 env d fuel tracker
    unfold bash_openstack
    rw [create_cases_eq, if_neg hs2]

/-- A two-action description with weights 60/40. -/
def c1DemoSpec : List Choice :=
  [{ action := 0, probability := 60 }, { action := 1, probability := 40 }]

/-- A description whose weights sum to 50, not 100. -/
def c1BadSpec : List Choice :=
  [{ action := 0, probability := 50 }]

/-- An environment whose oracles all return trivial values. -/
def quietEnv : Env :=
  { now := fun _ => 0, invoke := fun _ => none, logsErr := fun _ => false,
    getServer := fun _ _ => Except.ok () }

theorem c1_catalog_invariant_witness :
    _create_cases c1DemoSpec = Except.ok (expandPool c1DemoSpec) ∧
    (expandPool c1DemoSpec).length = 100 ∧
    (expandPool c1DemoSpec).count { action := 0, probability := 60 } = 60 ∧
    bash_openstack c1BadSpec quietEnv 10 3 [] = Except.error DriverError.assertionFailed := by
  have h := c1_catalog_invariant c1DemoSpec (by decide) (by decide)
  exact ⟨h.1, h.2.1, h.2.2.1 (by decide) _ (by decide),
    h.2.2.2 c1BadSpec (by decide) quietEnv 10 3 []⟩

/-- C9: a description containing a strictly negative weight while the
raw arithmetic sum is still 100 passes the assert, and the pool built
has length equal to the sum of the positive weights alone, strictly
greater than 100. -/
theorem c9_negative_weight_pool (spec : List Choice) (c : Choice)
    (hc : c ∈ spec) (hneg : c.probability < 0) (hsum : weightSum spec = 100) :
    _create_cases spec = Except.ok (expandPool spec) ∧
    ((expandPool spec).length : Int) = posWeightSum spec ∧
    100 < (expandPool spec).length := by
  refine ⟨by rw [create_cases_eq, if_pos hsum], ?_, ?_⟩
  · rw [length_expandPool]
    exact toNatSum_eq_posWeightSum spec
  · have h1 := weightSum_lt_toNatSum spec c hc hneg
    rw [hsum] at h1
    rw [length_expandPool]
    exact_mod_cast h1

/-- A description with a negative weight whose raw sum is 100. -/
def c9DemoSpec : List Choice :=
  [{ action := 0, probability := -10 }, { action := 1, probability := 60 },
   { action := 2, probability := 50 }]

theorem c9_negative_weight_pool_witness :
    _create_cases c9DemoSpec = Except.ok (expandPool c9DemoSpec) ∧
    ((expandPool c9DemoSpec).length : Int) = posWeightSum c9DemoSpec ∧
    100 < (expandPool c9DemoSpec).length :=
  c9_negative_weight_pool c9DemoSpec { action := 0, probability := -10 }
    (by decide) (by decide) (by decide)

/-! ## C10: short lines crash node discovery -/

/-- Any line of one to four words makes the discovery loop raise
IndexError, whatever lines come before or after it and whatever nodes
were already collected. -/
theorem computeNodesLoop_short_line (lines : List (List Char)) :
    ∀ nodes, (∃ l ∈ lines, 1 ≤ (pySplit l).length ∧ (pySplit l).length ≤ 4) →
      computeNodesLoop lines nodes = Except.error DriverError.indexError := by
  induction lines with
  | nil =>
      intro nodes h
      rcases h with ⟨l, hl, _⟩
      cases hl
  | cons line rest ih =>
      intro nodes h
      rcases h with ⟨l, hl, h1, h4⟩
      rcases List.mem_cons.mp hl with rfl | hmem
      · have hp : 0 < (pySplit l).length := h1
        have hnone : (pySplit l).get? 4 = none := List.get?_eq_none.mpr h4
        simp only [computeNodesLoop]
        rw [if_pos hp, hnone]
      · by_cases hp : 0 < (pySplit line).length
        · cases hg : (pySplit line).get? 4 with
          | none =>
              simp only [computeNodesLoop]
              rw [if_pos hp, hg]
          | some w4 =>
              by_cases hw : w4 = ":-)".toList
              · have h5 : 4 < (pySplit line).length := by
                  by_contra hlen
                  rw [List.get?_eq_none.mpr (le_of_not_lt hlen)] at hg
                  cases hg
                have hg1 : ∃ w1, (pySplit line).get? 1 = some w1 := by
                  cases hq : (pySplit line).get? 1 with
                  | none =>
                      rw [List.get?_eq_none] at hq
                      omega
                  | some w1 => exact ⟨w1, rfl⟩
                rcases hg1 with ⟨w1, hg1⟩
                simp only [computeNodesLoop]
                rw [if_pos hp, hg]
                dsimp only
                rw [if_pos hw, hg1]
                exact ih _ ⟨l, hmem, h1, h4⟩
              · simp only [computeNodesLoop]
                rw [if_pos hp, hg]
                dsimp only
                rw [if_neg hw]
                exact ih _ ⟨l, hmem, h1, h4⟩
        · simp only [computeNodesLoop]
          rw [if_neg hp]
          exact ih _ ⟨l, hmem, h1, h4⟩

/-- C10: with keypath and user supplied, any node-discovery output
containing a line that splits into between one and four words makes
_get_compute_nodes raise IndexError rather than skip the line. -/
theorem c10_short_line_breaks_discovery (kp u : String) (out : List Char) (line : List Char)
    (hmem : line ∈ splitLines out)
    (h1 : 1 ≤ (pySplit line).length) (h4 : (pySplit line).length ≤ 4) :
    _get_compute_nodes (some kp) (some u) out = Except.error DriverError.indexError := by
  unfold _get_compute_nodes
  simp only [Option.isNone_some, Bool.or_self, Bool.false_eq_true, if_false]
  exact computeNodesLoop_short_line _ [] ⟨line, hmem, h1, h4⟩

theorem c10_short_line_breaks_discovery_witness :
    _get_compute_nodes (some "key") (some "admin") ("nova-compute xg11".toList) =
      Except.error DriverError.indexError :=
  c10_short_line_breaks_discovery "key" "admin" ("nova-compute xg11".toList)
    ("nova-compute xg11".toList) (by decide) (by decide) (by decide)

/-! ## C2: drain-pass retention polarity and drain counts -/

/-- A drain pass over identical handles: all are dropped when the next
retry() returns True, all kept and advanced when it returns False. -/
theorem drainPass_replicate (N : Nat) (b : Nat → Option Bool) (c : Nat) (r : Bool)
    (hb : b c = some r) :
    drainPass (List.replicate N ⟨b, c⟩) =
      Except.ok (if r then [] else List.replicate N ⟨b, c + 1⟩) := by
  induction N with
  | zero => cases r <;> simp [drainPass, List.replicate]
  | succ n ihn =>
      rw [List.replicate_succ]
      simp only [drainPass]
      rw [hb, ihn]
      cases r <;> simp [List.replicate_succ, Handle.advance]

/-- Specialization of drainPass_replicate to a shared False answer. -/
theorem drainPass_replicate_false (N : Nat) (b : Nat → Option Bool) (c : Nat)
    (hb : b c = some false) :
    drainPass (List.replicate N ⟨b, c⟩) = Except.ok (List.replicate N ⟨b, c + 1⟩) := by
  rw [drainPass_replicate N b c false hb]
  simp

/-- Specialization of drainPass_replicate to a shared True answer. -/
theorem drainPass_replicate_true (N : Nat) (b : Nat → Option Bool) (c : Nat)
    (hb : b c = some true) :
    drainPass (List.replicate N ⟨b, c⟩) = Except.ok [] := by
  rw [drainPass_replicate N b c true hb]
  simp

/-- Draining an empty pool any number of times leaves it empty. -/
theorem drainPasses_nil (j : Nat) : drainPasses j [] = Except.ok [] := by
  induction j with
  | zero => rfl
  | succ n ihn =>
      simp only [drainPasses, drainPass]
      exact ihn

/-- As long as retry() keeps answering False, every pass keeps the
whole pool, advancing each handle by one call. -/
theorem drainPasses_keep (j : Nat) :
    ∀ (c N : Nat) (b : Nat → Option Bool), (∀ i, i < j → b (c + i) = some false) →
      drainPasses j (List.replicate N ⟨b, c⟩) = Except.ok (List.replicate N ⟨b, c + j⟩) := by
  induction j with
  | zero => intro c N b _; simp [drainPasses]
  | succ n ihn =>
      intro c N b h
      simp only [drainPasses]
      rw [drainPass_replicate_false N b c (by simpa using h 0 (Nat.succ_pos n))]
      show drainPasses n (List.replicate N ⟨b, c + 1⟩) =
        Except.ok (List.replicate N ⟨b, c + (n + 1)⟩)
      rw [ihn (c + 1) N b (fun i hi => by
        have h2 := h (i + 1) (by omega)
        rw [show c + 1 + i = c + (i + 1) from by omega]
        exact h2)]
      rw [show c + 1 + n = c + (n + 1) from by omega]

/-- One True from retry(), after j passes of False answers, empties the
pool on pass j + 1. -/
theorem drainPasses_kill (j : Nat) :
    ∀ (c N : Nat) (b : Nat → Option Bool), b (c + j) = some true →
      (∀ i, i < j → b (c + i) = some false) →
      drainPasses (j + 1) (List.replicate N ⟨b, c⟩) = Except.ok [] := by
  induction j with
  | zero =>
      intro c N b ht _
      simp only [drainPasses]
      rw [drainPass_replicate_true N b c (by simpa using ht)]
  | succ n ihn =>
      intro c N b ht h
      simp only [drainPasses]
      rw [drainPass_replicate_false N b c (by simpa using h 0 (Nat.succ_pos n))]
      show drainPasses (n + 1) (List.replicate N ⟨b, c + 1⟩) = Except.ok []
      exact ihn (c + 1) N b
        (by rw [show c + 1 + n = c + (n + 1) from by omega]; exact ht)
        (fun i hi => by
          have h2 := h (i + 1) (by omega)
          rw [show c + 1 + i = c + (i + 1) from by omega]
          exact h2)

/-- Results of retry() for a handle that stays pending for its first k - 1
calls and resolves from call k on (calls are 0-indexed, so call k has
index k - 1). -/
def stepBehavior (k : Nat) : Nat → Option Bool :=
  fun i => some (decide (k - 1 ≤ i))

/-- A pool of N fresh handles that all resolve on their k-th retry()
call. -/
def stepPool (N k : Nat) : List Handle :=
  List.replicate N ⟨stepBehavior k, 0⟩

/-- C2 (amended): in every drain pass a held handle is kept exactly
when its retry() returns False (still pending) and dropped exactly when
it returns True (resolved); consequently a pool of N handles whose
retry() answers False for the first k - 1 calls and True on call k is
still full after any j < k passes and becomes empty after exactly k
passes, for every N >= 1. -/
theorem c2_drain_polarity (N k j : Nat) (hN : 1 ≤ N) (hk : 1 ≤ k) (hj : j < k)
    (v : Handle) (rest : List Handle) (r : Bool) (hv : v.behavior v.calls = some r) :
    drainPass (v :: rest) =
      (drainPass rest).map (fun rest2 => if r then rest2 else v.advance :: rest2) ∧
    drainPasses k (stepPool N k) = Except.ok [] ∧
    drainPasses j (stepPool N k) = Except.ok (List.replicate N ⟨stepBehavior k, j⟩) ∧
    List.replicate N (⟨stepBehavior k, j⟩ : Handle) ≠ [] := by
  refine ⟨?_, ?_, ?_, ?_⟩
  · simp only [drainPass, hv]
    cases hd : drainPass rest <;> simp [Except.map]
  · have h := drainPasses_kill (k - 1) 0 N (stepBehavior k)
      (by simp [stepBehavior])
      (fun i hi => by
        simp only [stepBehavior, Nat.zero_add, Option.some.injEq]
        simp only [decide_eq_false_iff_not]
        omega)
    rw [show k - 1 + 1 = k from by omega] at h
    exact h
  · have h := drainPasses_keep j 0 N (stepBehavior k)
      (fun i hi => by
        simp only [stepBehavior, Nat.zero_add, Option.some.injEq]
        simp only [decide_eq_false_iff_not]
        omega)
    simpa using h
  · intro hcon
    have hlen := congrArg List.length hcon
    simp only [List.length_replicate, List.length_nil] at hlen
    omega

theorem c2_drain_polarity_witness :
    drainPasses 3 (stepPool 2 3) = Except.ok [] ∧
    drainPasses 1 (stepPool 2 3) = Except.ok (List.replicate 2 ⟨stepBehavior 3, 1⟩) := by
  have h := c2_drain_polarity 2 3 1 (by decide) (by decide) (by decide)
    ⟨stepBehavior 3, 0⟩ [] false rfl
  exact ⟨h.2.1, h.2.2.1⟩

/-- Results of retry() the original claim describes for k = 2 under its
reading that True means still pending: True on call 1, False from call
2 on, so the claim predicts the pool still holds the handle after one
pass and empties only on pass 2. -/
def c2ClaimHandle : Handle :=
  ⟨fun i => some (decide (i = 0)), 0⟩

/-- C2 counterexample: for the one-handle pool above the code empties
the pool on the very first pass (the True from retry() drops the
handle), so the pool is not kept-on-True/dropped-on-False and does not
become empty after exactly two passes. -/
theorem c2_counterexample :
    ¬ (drainPasses 2 [c2ClaimHandle] = Except.ok [] ∧
       drainPasses 1 [c2ClaimHandle] ≠ Except.ok []) := by
  intro h
  exact h.2 rfl

/-! ## Loop-phase lemmas -/

/-- In cooldown the injection block does nothing and consults no
oracle. -/
theorem injectPhase_cooldown (env : Env) (tEnd : Int) (s : LoopState) (hc : s.cooldown = true) :
    injectPhase env tEnd s = s := by
  simp [injectPhase, hc]

/-- The injection block never touches logq, logcheck_count,
test_succeeded or last_retry. -/
theorem injectPhase_fields (env : Env) (tEnd : Int) (s : LoopState) :
    (injectPhase env tEnd s).logq = s.logq ∧
    (injectPhase env tEnd s).logcheck_count = s.logcheck_count ∧
    (injectPhase env tEnd s).test_succeeded = s.test_succeeded ∧
    (injectPhase env tEnd s).last_retry = s.last_retry := by
  simp only [injectPhase]
  split
  · exact ⟨rfl, rfl, rfl, rfl⟩
  · split
    · split <;> exact ⟨rfl, rfl, rfl, rfl⟩
    · exact ⟨rfl, rfl, rfl, rfl⟩

/-- A successful retry block changes only timeq, retry_list and
last_retry. -/
theorem retryPhase_fields (env : Env) (s s3 : LoopState) (h : retryPhase env s = Except.ok s3) :
    s3.cooldown = s.cooldown ∧ s3.samples = s.samples ∧ s3.logq = s.logq ∧
    s3.logcheck_count = s.logcheck_count ∧ s3.test_succeeded = s.test_succeeded := by
  simp only [retryPhase] at h
  split at h
  · split at h
    · cases h
    · rw [Except.ok.injEq] at h
      subst h
      exact ⟨rfl, rfl, rfl, rfl, rfl⟩
  · rw [Except.ok.injEq] at h
    subst h
    exact ⟨rfl, rfl, rfl, rfl, rfl⟩

/-- The trailing log check never touches cooldown or samples. -/
theorem logcheckPhase_state (env : Env) (s : LoopState) :
    (logcheckPhase env s).state.cooldown = s.cooldown ∧
    (logcheckPhase env s).state.samples = s.samples := by
  simp only [logcheckPhase]
  split
  · split <;> exact ⟨rfl, rfl⟩
  · exact ⟨rfl, rfl⟩

/-- When cooldown holds and the pool is empty, one iteration runs
exactly the final log check and breaks. -/
theorem step_final (env : Env) (tEnd : Int) (s : LoopState)
    (hc : s.cooldown = true) (he : s.retry_list = []) :
    step env tEnd s = Except.ok (finalCheck env s) := by
  simp only [step, injectPhase_cooldown env tEnd s hc, hc, he, List.isEmpty_nil,
    Bool.and_self, if_true]

/-- When the break condition fails, one iteration is the retry block
followed by the trailing log check. -/
theorem step_not_final (env : Env) (tEnd : Int) (s : LoopState)
    (hnb : ((injectPhase env tEnd s).cooldown &&
            (injectPhase env tEnd s).retry_list.isEmpty) = false) :
    step env tEnd s =
      match retryPhase env (injectPhase env tEnd s) with
      | Except.error e => Except.error e
      | Except.ok s3 => Except.ok (logcheckPhase env s3) := by
  simp only [step, hnb, Bool.false_eq_true, if_false]

/-! ## C5: cooldown gating -/

/-- A single iteration from a cooldown state stays in cooldown and
samples nothing. -/
theorem step_cooldown_inv (env : Env) (tEnd : Int) (s : LoopState) (r : StepResult)
    (hc : s.cooldown = true) (h : step env tEnd s = Except.ok r) :
    r.state.cooldown = true ∧ r.state.samples = s.samples := by
  by_cases he : s.retry_list = []
  · rw [step_final env tEnd s hc he, Except.ok.injEq] at h
    subst h
    exact ⟨hc, rfl⟩
  · have hnb : ((injectPhase env tEnd s).cooldown &&
        (injectPhase env tEnd s).retry_list.isEmpty) = false := by
      rw [injectPhase_cooldown env tEnd s hc]
      cases hl : s.retry_list with
      | nil => exact absurd hl he
      | cons a l => simp
    rw [step_not_final env tEnd s hnb] at h
    cases hrp : retryPhase env (injectPhase env tEnd s) with
    | error e => rw [hrp] at h; cases h
    | ok s3 =>
        rw [hrp, Except.ok.injEq] at h
        subst h
        have hf := retryPhase_fields env _ s3 hrp
        have hl := logcheckPhase_state env s3
        rw [injectPhase_cooldown env tEnd s hc] at hf
        exact ⟨by rw [hl.1, hf.1, hc], by rw [hl.2, hf.2.1]⟩

/-- Iterating from a cooldown state, however the loop ends, never
samples another action and never leaves cooldown. -/
theorem runLoop_cooldown_inv (env : Env) (tEnd : Int) (fuel : Nat) :
    ∀ (s : LoopState) (res : RunResult), s.cooldown = true →
      runLoop env tEnd fuel s = Except.ok res →
      res.state.cooldown = true ∧ res.state.samples = s.samples := by
  induction fuel with
  | zero =>
      intro s res hc h
      simp only [runLoop, Except.ok.injEq] at h
      subst h
      exact ⟨hc, rfl⟩
  | succ n ihn =>
      intro s res hc h
      simp only [runLoop] at h
      cases hstep : step env tEnd s with
      | error e => rw [hstep] at h; cases h
      | ok r =>
          rw [hstep] at h
          have hs := step_cooldown_inv env tEnd s r hc hstep
          cases r with
          | next s' =>
              have hrec := ihn s' res hs.1 h
              exact ⟨hrec.1, by rw [hrec.2]; exact hs.2⟩
          | exit b s' =>
              rw [Except.ok.injEq] at h
              subst h
              exact hs

/-- C5: once the engine has entered cooldown, an iteration never
samples or invokes a new action (the sampling counter is unchanged) and
never leaves cooldown, and any number of further iterations, however
the loop ends, leaves the sampling counter where cooldown found it. -/
theorem c5_cooldown_gating (env : Env) (tEnd : Int) (fuel : Nat) (s : LoopState)
    (hc : s.cooldown = true) :
    (∀ r, step env tEnd s = Except.ok r →
      r.state.cooldown = true ∧ r.state.samples = s.samples) ∧
    (∀ res, runLoop env tEnd fuel s = Except.ok res →
      res.state.cooldown = true ∧ res.state.samples = s.samples) :=
  ⟨fun r h => step_cooldown_inv env tEnd s r hc h,
   fun res h => runLoop_cooldown_inv env tEnd fuel s res hc h⟩

/-- A cooldown state with an empty pool and all counters at zero. -/
def c5S : LoopState :=
  { timeq := 0, samples := 0, logq := 0, retry_list := [], last_retry := 0,
    cooldown := true, logcheck_count := 0, test_succeeded := true }

theorem c5_cooldown_gating_witness :
    (StepResult.exit true { c5S with logq := 1 }).state.cooldown = true ∧
    (StepResult.exit true { c5S with logq := 1 }).state.samples = c5S.samples ∧
    (RunResult.outOfFuel c5S).state.samples = c5S.samples := by
  have h := c5_cooldown_gating quietEnv 0 0 c5S rfl
  exact ⟨(h.1 _ rfl).1, (h.1 _ rfl).2, (h.2 (RunResult.outOfFuel c5S) rfl).2⟩

/-! ## C3: retry() exceptions propagate -/

/-- C3 (amended): when a held handle's retry() raises during a drain
pass, the pass aborts without processing the remaining handles, the
exception escapes the iteration and the whole loop, and the run ends
with that exception without reaching cleanup. -/
theorem c3_retry_exception_propagates (v : Handle) (rest : List Handle) (env : Env)
    (tEnd : Int) (fuel : Nat) (s : LoopState) (tracker : List VM)
    (hv : v.behavior v.calls = none)
    (hcool : s.cooldown = true) (hlist : s.retry_list = v :: rest)
    (htime : 5 < env.now s.timeq - s.last_retry) :
    drainPass (v :: rest) = Except.error DriverError.retryException ∧
    step env tEnd s = Except.error DriverError.retryException ∧
    runLoop env tEnd (fuel + 1) s = Except.error DriverError.retryException ∧
    runToEnd env tEnd (fuel + 1) s tracker = Except.error DriverError.retryException := by
  have hd : drainPass (v :: rest) = Except.error DriverError.retryException := by
    simp only [drainPass, hv]
  have hrp : retryPhase env s = Except.error DriverError.retryException := by
    simp only [retryPhase]
    rw [if_pos htime, hlist, hd]
  have hnb : ((injectPhase env tEnd s).cooldown &&
      (injectPhase env tEnd s).retry_list.isEmpty) = false := by
    rw [injectPhase_cooldown env tEnd s hcool, hlist]
    simp
  have hstep : step env tEnd s = Except.error DriverError.retryException := by
    rw [step_not_final env tEnd s hnb, injectPhase_cooldown env tEnd s hcool, hrp]
  have hrl : runLoop env tEnd (fuel + 1) s = Except.error DriverError.retryException := by
    simp only [runLoop, hstep]
  refine ⟨hd, hstep, hrl, ?_⟩
  simp only [runToEnd, hrl]

/-- A handle whose retry() raises on every call. -/
def c3BoomHandle : Handle :=
  ⟨fun _ => none, 0⟩

/-- A healthy handle that resolves on every call. -/
def c3OkHandle : Handle :=
  ⟨fun _ => some true, 0⟩

/-- An environment whose clock always reads 10, making every retry
cadence check fire. -/
def c3Env : Env :=
  { now := fun _ => 10, invoke := fun _ => none, logsErr := fun _ => false,
    getServer := fun _ _ => Except.ok () }

/-- A cooldown state holding the raising handle followed by a healthy
one, with the last retry stamp old enough to trigger a drain pass. -/
def c3S : LoopState :=
  { timeq := 0, samples := 0, logq := 0, retry_list := [c3BoomHandle, c3OkHandle],
    last_retry := 0, cooldown := true, logcheck_count := 0, test_succeeded := true }

/-- C3 counterexample: with a pool holding a handle whose retry()
raises followed by a healthy handle, the drain pass does not complete
and is not swallowed: the run ends with the exception instead of
logging it, keeping the handle and finishing the pass. -/
theorem c3_counterexample :
    drainPass [c3BoomHandle, c3OkHandle] = Except.error DriverError.retryException ∧
    runToEnd c3Env 99 5 c3S [] = Except.error DriverError.retryException :=
  ⟨rfl, rfl⟩

theorem c3_retry_exception_propagates_witness :
    drainPass [c3BoomHandle] = Except.error DriverError.retryException ∧
    step c3Env 99 { c3S with retry_list := [c3BoomHandle] } =
      Except.error DriverError.retryException ∧
    runLoop c3Env 99 3 { c3S with retry_list := [c3BoomHandle] } =
      Except.error DriverError.retryException ∧
    runToEnd c3Env 99 3 { c3S with retry_list := [c3BoomHandle] } [] =
      Except.error DriverError.retryException :=
  c3_retry_exception_propagates c3BoomHandle [] c3Env 99 2
    { c3S with retry_list := [c3BoomHandle] } [] rfl rfl rfl (by decide)

/-! ## C4: the trip-wire counter counts iterations -/

/-- C4 (amended): the trip-wire counter is incremented once per loop
iteration that reaches the trailing check (whether or not the iteration
invoked an action), and whenever it exceeds 100 the iteration runs a
FailureDetector check whose positive answer breaks out of the loop at
once with the outcome recorded as failure, after which the run goes
straight to cleanup and returns failure - regardless of how much
injection time remains. -/
theorem c4_tripwire_counter (env : Env) (tEnd : Int) (fuel : Nat) (s s3 : LoopState)
    (tracker : List VM)
    (hnb : ((injectPhase env tEnd s).cooldown &&
            (injectPhase env tEnd s).retry_list.isEmpty) = false)
    (hr : retryPhase env (injectPhase env tEnd s) = Except.ok s3) :
    s3.logcheck_count = s.logcheck_count ∧
    (s.logcheck_count ≤ 100 →
      step env tEnd s =
        Except.ok (StepResult.next { s3 with logcheck_count := s3.logcheck_count + 1 })) ∧
    (100 < s.logcheck_count → env.logsErr s3.logq = true →
      step env tEnd s = Except.ok (StepResult.exit false
        { s3 with logq := s3.logq + 1, test_succeeded := false }) ∧
      runToEnd env tEnd (fuel + 1) s tracker =
        (cleanup env tracker).map (fun tr => some (false, tr))) := by
  have hcnt : s3.logcheck_count = s.logcheck_count := by
    rw [(retryPhase_fields env _ s3 hr).2.2.2.1, (injectPhase_fields env tEnd s).2.1]
  have hstep := step_not_final env tEnd s hnb
  rw [hr] at hstep
  refine ⟨hcnt, ?_, ?_⟩
  · intro hle
    rw [hstep]
    simp only [logcheckPhase]
    rw [if_neg (by omega : ¬ 100 < s3.logcheck_count)]
  · intro hgt herr
    have hstep2 : step env tEnd s = Except.ok (StepResult.exit false
        { s3 with logq := s3.logq + 1, test_succeeded := false }) := by
      rw [hstep]
      simp only [logcheckPhase]
      rw [if_pos (by omega : 100 < s3.logcheck_count), herr]
      simp
    refine ⟨hstep2, ?_⟩
    have hrl : runLoop env tEnd (fuel + 1) s = Except.ok (RunResult.finished false
        { s3 with logq := s3.logq + 1, test_succeeded := false }) := by
      simp only [runLoop, hstep2]
    simp only [runToEnd, hrl]
    cases hcl : cleanup env tracker <;> simp [Except.map]

/-- An environment for exercising the trip-wire: the clock stands at 0,
actions return no verification, the log check reports an error. -/
def c4Env : Env :=
  { now := fun _ => 0, invoke := fun _ => none, logsErr := fun _ => true,
    getServer := fun _ _ => Except.ok () }

/-- An injection-phase state whose trip-wire counter already passed
100. -/
def c4S : LoopState :=
  { timeq := 0, samples := 0, logq := 0, retry_list := [], last_retry := 0,
    cooldown := false, logcheck_count := 101, test_succeeded := true }

/-- State c4S after its injection block (one action invoked) and a skipped
retry block. -/
def c4S3 : LoopState :=
  { timeq := 2, samples := 1, logq := 0, retry_list := [], last_retry := 0,
    cooldown := false, logcheck_count := 101, test_succeeded := true }

theorem c4_tripwire_counter_witness :
    step c4Env 10 c4S = Except.ok (StepResult.exit false
      { c4S3 with logq := 1, test_succeeded := false }) ∧
    runToEnd c4Env 10 1 c4S [] = Except.ok (some (false, [])) := by
  have h := (c4_tripwire_counter c4Env 10 0 c4S c4S3 [] rfl rfl).2.2 (by decide) rfl
  exact ⟨h.1, h.2.trans rfl⟩

/-- An environment for a quiet cooldown iteration. -/
def c4xEnv : Env :=
  { now := fun _ => 0, invoke := fun _ => none, logsErr := fun _ => false,
    getServer := fun _ _ => Except.ok () }

/-- A pending handle that would resolve if retried. -/
def c4xHandle : Handle :=
  ⟨fun _ => some true, 0⟩

/-- A cooldown state with one outstanding verification and a fresh
retry stamp, so the iteration neither invokes nor drains. -/
def c4xS : LoopState :=
  { timeq := 0, samples := 0, logq := 0, retry_list := [c4xHandle], last_retry := 0,
    cooldown := true, logcheck_count := 0, test_succeeded := true }

/-- C4 counterexample: an iteration taken entirely in cooldown - no
action sampled or invoked, the sampling counter stays at 0 - still
increments the trip-wire counter from 0 to 1, so the counter counts
loop iterations, not action invocations. -/
theorem c4_counterexample :
    step c4xEnv 0 c4xS =
      Except.ok (StepResult.next { c4xS with timeq := 1, logcheck_count := 1 }) ∧
    ({ c4xS with timeq := 1, logcheck_count := 1 } : LoopState).samples = c4xS.samples :=
  ⟨rfl, rfl⟩

/-! ## C7: the final check and teardown -/

/-- C7: when the engine is in cooldown with an empty verification pool,
the iteration makes exactly one FailureDetector query and breaks
whatever the answer is, with the flag forced to false when the detector
reported errors; the full run then still performs the whole cleanup
phase and only after it returns that flag. -/
theorem c7_final_check_then_cleanup (env : Env) (tEnd : Int) (fuel : Nat) (s : LoopState)
    (tracker : List VM) (hc : s.cooldown = true) (he : s.retry_list = []) :
    step env tEnd s = Except.ok (StepResult.exit
        (if env.logsErr s.logq then false else s.test_succeeded)
        { s with logq := s.logq + 1,
                 test_succeeded := if env.logsErr s.logq then false else s.test_succeeded }) ∧
    runToEnd env tEnd (fuel + 1) s tracker =
      (cleanup env tracker).map
        (fun tr => some ((if env.logsErr s.logq then false else s.test_succeeded), tr)) := by
  have hstep2 : step env tEnd s = Except.ok (StepResult.exit
      (if env.logsErr s.logq then false else s.test_succeeded)
      { s with logq := s.logq + 1,
               test_succeeded := if env.logsErr s.logq then false else s.test_succeeded }) := by
    rw [step_final env tEnd s hc he]
    rfl
  refine ⟨hstep2, ?_⟩
  have hrl : runLoop env tEnd (fuel + 1) s = Except.ok (RunResult.finished
      (if env.logsErr s.logq then false else s.test_succeeded)
      { s with logq := s.logq + 1,
               test_succeeded := if env.logsErr s.logq then false else s.test_succeeded }) := by
    simp only [runLoop, hstep2]
  simp only [runToEnd, hrl]
  cases hcl : cleanup env tracker <;> simp [Except.map]

/-- An environment whose log check reports an error and whose
get_server always raises not-found (resources confirmed deleted at the
first poll). -/
def c7Env : Env :=
  { now := fun _ => 0, invoke := fun _ => none, logsErr := fun _ => true,
    getServer := fun _ _ => Except.error ExnKind.notFound }

/-- A cooldown state with an empty verification pool. -/
def c7S : LoopState :=
  { timeq := 0, samples := 0, logq := 0, retry_list := [], last_retry := 0,
    cooldown := true, logcheck_count := 0, test_succeeded := true }

theorem c7_final_check_then_cleanup_witness :
    step c7Env 0 c7S = Except.ok (StepResult.exit false
      { c7S with logq := 1, test_succeeded := false }) ∧
    runToEnd c7Env 0 1 c7S [{ id := "vm-a", status := "ACTIVE" }] =
      Except.ok (some (false, [])) := by
  have h := c7_final_check_then_cleanup c7Env 0 0 c7S
    [{ id := "vm-a", status := "ACTIVE" }] rfl rfl
  exact ⟨h.1, h.2.trans rfl⟩

/-! ## C6 and C8: deletion-confirmation polling -/

/-- If the server keeps being observed, the poll loop makes
i + budget + 1 get_server calls, runs the diagnostic log check once and
times out. -/
theorem pollDeletion_timeout (env : Env) (kill_id : String) :
    ∀ (budget i : Nat), (∀ j, j < i + budget + 1 → env.getServer kill_id j = Except.ok ()) →
      pollDeletion env kill_id budget i =
        { getCalls := i + budget + 1, detCalls := 1, timedOut := true } := by
  intro budget
  induction budget with
  | zero =>
      intro i h
      simp only [pollDeletion]
      rw [h i (by omega)]
  | succ b ihb =>
      intro i h
      simp only [pollDeletion]
      rw [h i (by omega)]
      show pollDeletion env kill_id b (i + 1) =
        { getCalls := i + (b + 1) + 1, detCalls := 1, timedOut := true }
      rw [ihb (i + 1) (fun j hj => h j (by omega)),
        show i + 1 + b + 1 = i + (b + 1) + 1 from by omega]

/-- If the q-th get_server call raises (any exception kind) after q
clean observations, the poll loop stops right there: q + 1 calls, no
diagnostic check, no timeout. -/
theorem pollDeletion_confirms (env : Env) (kill_id : String) (q : Nat) (e : ExnKind) :
    ∀ (budget i : Nat), i ≤ q → q ≤ i + budget →
      (∀ j, i ≤ j → j < q → env.getServer kill_id j = Except.ok ()) →
      env.getServer kill_id q = Except.error e →
      pollDeletion env kill_id budget i =
        { getCalls := q + 1, detCalls := 0, timedOut := false } := by
  intro budget
  induction budget with
  | zero =>
      intro i h1 h2 hok herr
      have hiq : i = q := by omega
      subst hiq
      simp only [pollDeletion]
      rw [herr]
  | succ b ihb =>
      intro i h1 h2 hok herr
      by_cases hiq : i = q
      · subst hiq
        simp only [pollDeletion]
        rw [herr]
      · have hlt : i < q := by omega
        simp only [pollDeletion]
        rw [hok i (le_refl i) hlt]
        exact ihb (i + 1) (by omega) (by omega) (fun j hj1 hj2 => hok j (by omega) hj2) herr

/-- C6 (amended): a resource whose deletion never becomes observable is
polled 61 times (the timeout fires after the 61st successful
get_server call, not the 60th); the poll then runs the FailureDetector
once for diagnostics and the cleanup aborts the whole run with the
cleanup-timeout exception - the run does not return a false success
flag. -/
theorem c6_cleanup_timeout (env : Env) (kill_id : String) (st : String)
    (tracker rest : List VM) (tEnd : Int) (fuel : Nat) (s s2 : LoopState) (b : Bool)
    (hserver : ∀ j, j < 61 → env.getServer kill_id j = Except.ok ())
    (hrun : runLoop env tEnd fuel s = Except.ok (RunResult.finished b s2)) :
    pollDeletion env kill_id 60 0 = { getCalls := 61, detCalls := 1, timedOut := true } ∧
    cleanupTargets env tracker ({ id := kill_id, status := st } :: rest) =
      Except.error DriverError.cleanupTimeout ∧
    runToEnd env tEnd fuel s [{ id := kill_id, status := "ACTIVE" }] =
      Except.error DriverError.cleanupTimeout := by
  have hpoll : pollDeletion env kill_id 60 0 =
      { getCalls := 61, detCalls := 1, timedOut := true } :=
    pollDeletion_timeout env kill_id 60 0 (fun j hj => hserver j (by omega))
  have hct : ∀ (tr rs : List VM) (st2 : String),
      cleanupTargets env tr ({ id := kill_id, status := st2 } :: rs) =
        Except.error DriverError.cleanupTimeout := by
    intro tr rs st2
    simp only [cleanupTargets]
    rw [hpoll]
    rfl
  refine ⟨hpoll, hct tracker rest st, ?_⟩
  simp only [runToEnd, hrun, cleanup]
  rw [show List.filter (fun v => v.status == "ACTIVE")
        [({ id := kill_id, status := "ACTIVE" } : VM)] =
      [({ id := kill_id, status := "ACTIVE" } : VM)] from by simp]
  rw [hct [{ id := kill_id, status := "ACTIVE" }] [] "ACTIVE"]

/-- An environment whose get_server always observes the resource. -/
def c6Env : Env :=
  { now := fun _ => 0, invoke := fun _ => none, logsErr := fun _ => false,
    getServer := fun _ _ => Except.ok () }

/-- C6 counterexample: when the resource never disappears, the cleanup
poll issues 61 get_server calls, not at most 60. -/
theorem c6_counterexample :
    (pollDeletion c6Env "vm-1" 60 0).getCalls = 61 ∧
    ¬ (pollDeletion c6Env "vm-1" 60 0).getCalls ≤ 60 := by
  decide

/-- A cooldown state used to finish the loop in one step. -/
def c6S : LoopState :=
  { timeq := 0, samples := 0, logq := 0, retry_list := [], last_retry := 0,
    cooldown := true, logcheck_count := 0, test_succeeded := true }

theorem c6_cleanup_timeout_witness :
    pollDeletion c6Env "vm-1" 60 0 = { getCalls := 61, detCalls := 1, timedOut := true } ∧
    cleanupTargets c6Env [] [{ id := "vm-1", status := "ERROR" }] =
      Except.error DriverError.cleanupTimeout ∧
    runToEnd c6Env 0 1 c6S [{ id := "vm-1", status := "ACTIVE" }] =
      Except.error DriverError.cleanupTimeout := by
  have h := c6_cleanup_timeout c6Env "vm-1" "ERROR" [] [] 0 1 c6S
    { c6S with logq := 1 } true (fun j _ => rfl) rfl
  exact h

/-- C8: during deletion confirmation any exception from get_server -
not-found, transport failure or anything else - is taken as proof of
deletion: the poll stops at that call with no timeout and no diagnostic
check, and cleanup removes the resource's record from the state tracker
and moves on, never re-verifying it. -/
theorem c8_exception_confirms_deletion (env : Env) (kill_id : String) (q : Nat) (e : ExnKind)
    (tracker rest : List VM) (st : String)
    (hq : q ≤ 60)
    (hok : ∀ j, j < q → env.getServer kill_id j = Except.ok ())
    (herr : env.getServer kill_id q = Except.error e) :
    pollDeletion env kill_id 60 0 = { getCalls := q + 1, detCalls := 0, timedOut := false } ∧
    cleanupTargets env tracker ({ id := kill_id, status := st } :: rest) =
      cleanupTargets env (tracker.filter (fun v => v.id != kill_id)) rest := by
  have hpoll := pollDeletion_confirms env kill_id q e 60 0 (Nat.zero_le q) (by omega)
    (fun j _ hj => hok j hj) herr
  refine ⟨hpoll, ?_⟩
  simp only [cleanupTargets]
  rw [hpoll]
  rfl

/-- An environment whose get_server observes the resource three times
and then raises a transport error. -/
def c8Env : Env :=
  { now := fun _ => 0, invoke := fun _ => none, logsErr := fun _ => false,
    getServer := fun _ j => if j < 3 then Except.ok () else Except.error ExnKind.transport }

theorem c8_exception_confirms_deletion_witness :
    pollDeletion c8Env "vm-b" 60 0 = { getCalls := 4, detCalls := 0, timedOut := false } ∧
    cleanupTargets c8Env [{ id := "vm-b", status := "ACTIVE" }]
        [{ id := "vm-b", status := "ACTIVE" }] =
      cleanupTargets c8Env
        (List.filter (fun v => v.id != "vm-b") [{ id := "vm-b", status := "ACTIVE" }]) [] :=
  c8_exception_confirms_deletion c8Env "vm-b" 3 ExnKind.transport
    [{ id := "vm-b", status := "ACTIVE" }] [] "ACTIVE" (by decide)
    (fun j hj => by simp [c8Env]; omega) (by simp [c8Env])
